import Mathlib

/-!
Shallow embedding of the etcd-backup lifecycle controller
(`pkg/controllers/management/etcdbackup/etcdbackup.go`).

Modelling conventions:
- Go `time.Time` values are modelled as `Int` (seconds); the Go zero time is
  `0` and `time.Since(t)` at instant `now` is `now - t`.
- A condition's `LastUpdated` RFC3339 string is modelled as `Option Int`:
  `none` stands for a string that `time.Parse` rejects (absent or malformed),
  `some t` for a string parsing to instant `t`.
- External calls (Object Store gets/updates, the snapshot engine's
  save/remove, the S3 delete) are oracles supplied through environment
  records; the controller functions are otherwise translated branch by
  branch from the Go source.
-/

namespace EtcdBackupModel

/-- One hour, in the model's seconds unit (`time.Hour`). -/
def hourSeconds : Int := 3600

/-- Go `compressedExtension` constant from the source. -/
def compressedExtension : String := "zip"

/-- Go `s3Endpoint` constant from the source. -/
def s3Endpoint : String := "s3.amazonaws.com"

/-- Tri-state status of a resource condition (`v1.ConditionStatus`). -/
inductive CondStatus where
  | unknown
  | isTrue
  | isFalse
  deriving DecidableEq, Repr

/-- A resource condition slot: status, reason, message, last-transition time.
`lastUpdated = none` models a `LastUpdated` string `time.Parse` rejects. -/
structure Condition where
  status : CondStatus := CondStatus.unknown
  reason : String := ""
  message : String := ""
  lastUpdated : Option Int := none
  deriving DecidableEq, Repr

/-- Go `v3.S3BackupConfig`. -/
structure S3BackupConfig where
  accessKey : String := ""
  secretKey : String := ""
  endpoint : String := ""
  region : String := ""
  bucketName : String := ""
  folder : String := ""
  customCA : String := ""
  deriving DecidableEq, Repr

/-- Go `v3.BackupConfig` (the etcd backup policy on a cluster). -/
structure BackupConfig where
  enabled : Option Bool := none
  intervalHours : Int := 0
  retention : Int := 0
  safeTimestamp : Bool := false
  s3BackupConfig : Option S3BackupConfig := none
  deriving DecidableEq, Repr

/-- The slice of `v3.RancherKubernetesEngineConfig` the controller reads:
`Services.Etcd.BackupConfig`. -/
structure RKEConfig where
  backupConfig : Option BackupConfig := none
  deriving DecidableEq, Repr

/-- The slice of `v3.Cluster` the controller reads. `ready` models
`v3.ClusterConditionReady.IsTrue(cluster)`. -/
structure Cluster where
  name : String := ""
  deletionTimestamp : Option String := none
  rkeConfig : Option RKEConfig := none
  ready : Bool := false
  deriving DecidableEq, Repr

/-- Go `v3.EtcdBackup`: metadata plus spec (`ClusterID`, `Manual`, `Filename`,
frozen `BackupConfig`) plus the two status conditions. In Go
`Spec.BackupConfig` is a struct value, so it is non-optional here
(the zero value plays the Go zero struct). -/
structure EtcdBackup where
  name : String := ""
  namespaceName : String := ""
  generateName : String := ""
  clusterID : String := ""
  manual : Bool := false
  filename : String := ""
  backupConfig : BackupConfig := {}
  created : Condition := {}
  completed : Condition := {}
  deriving DecidableEq, Repr

/-- Go `cluster.Spec.RancherKubernetesEngineConfig.Services.Etcd.BackupConfig`
as an optional chain. -/
def clusterBackupConfig (c : Cluster) : Option BackupConfig :=
  match c.rkeConfig with
  | none => none
  | some r => r.backupConfig

/-- Go `isBackupSet`: rke cluster with a backup config. -/
def isBackupSet (rkeConfig : Option RKEConfig) : Bool :=
  match rkeConfig with
  | none => false
  | some r => r.backupConfig.isSome

/-- Go `isRecurringBackupEnabled`: backup set and `Enabled` pointer non-nil and true. -/
def isRecurringBackupEnabled (rkeConfig : Option RKEConfig) : Bool :=
  isBackupSet rkeConfig &&
    (match rkeConfig with
     | none => false
     | some r =>
       match r.backupConfig with
       | none => false
       | some bc => bc.enabled == some true)

/-- Go `shouldBackup`: not-an-rke, no backup config, not ready, or recurring
backups disabled each make the cluster ineligible. -/
def shouldBackup (cluster : Cluster) : Bool :=
  match cluster.rkeConfig with
  | none => false
  | some _ =>
    if !isBackupSet cluster.rkeConfig then false
    else if !cluster.ready then false
    else if !isRecurringBackupEnabled cluster.rkeConfig then false
    else true

/-- Go `getBackupCompletedTime`: parse the Completed condition's `LastUpdated`;
a parse failure yields the Go zero time (here `0`). -/
def getBackupCompletedTime (b : EtcdBackup) : Int :=
  match b.completed.lastUpdated with
  | none => 0
  | some t => t

/-- Go `getExpiredBackups`: keep every backup older than
`retention*intervalHours` hours (note: no `Manual` filter here). -/
def getExpiredBackups (now : Int) (retention intervalHours : Int)
    (backups : List EtcdBackup) : List EtcdBackup :=
  backups.filter (fun backup =>
    now - getBackupCompletedTime backup > retention * intervalHours * hourSeconds)

/-- Go `strings.ReplaceAll(s, ":", "-")` specialised to the single characters
the source uses. -/
def replaceColons (s : String) : String :=
  String.mk (s.data.map (fun c => if c = ':' then '-' else c))

/-- Go `generateBackupFilename`. `ts` stands for
`time.Now().Format(time.RFC3339)`, the only impure input. -/
def generateBackupFilename (snapshotName : String) (ts : String)
    (backupConfig : Option BackupConfig) : String :=
  match backupConfig with
  | none => ""
  | some bc =>
    let filename := snapshotName ++ "_" ++ ts ++ "." ++ compressedExtension
    let filename := if bc.safeTimestamp then replaceColons filename else filename
    match bc.s3BackupConfig with
    | some s3 =>
      if s3.folder.length ≠ 0 then
        "https://" ++ s3.endpoint ++ "/" ++ s3.bucketName ++ "/" ++ s3.folder ++ "/" ++ filename
      else
        "https://" ++ s3.endpoint ++ "/" ++ s3.bucketName ++ "/" ++ filename
    | none => filename

/-- Go `wait.Backoff` with the fields `getBackoff` sets. -/
structure Backoff where
  durationMs : Nat
  factor : Nat
  jitter : Nat
  steps : Nat
  deriving DecidableEq, Repr

/-- Go `getBackoff`: 1000 ms base, factor 2, zero jitter, 5 steps. -/
def getBackoff : Backoff :=
  { durationMs := 1000, factor := 2, jitter := 0, steps := 5 }

/-- Go `wait.ExponentialBackoff` specialised to the condition functions this
controller passes (they never return an error, only done/not-done, and the
caller keeps the last operation error in `inErr`).
`attemptResult i` is the operation error of attempt `i` (`none` = success).
Returns `(lastInErr, attemptsMade, sleptMs)`: the loop stops at the first
successful attempt, sleeps the current duration between attempts
(duration multiplied by the factor each step), and after the final allowed
attempt neither sleeps nor retries. -/
def backoffLoop (attemptResult : Nat → Option String) (durMs factor : Nat) :
    Nat → Nat → Option String × Nat × Nat
  | 0, _ => (none, 0, 0)
  | steps + 1, i =>
    match attemptResult i with
    | none => (none, 1, 0)
    | some e =>
      match steps with
      | 0 => (some e, 1, 0)
      | s + 1 =>
        let r := backoffLoop attemptResult (durMs * factor) factor (s + 1) (i + 1)
        (r.1, r.2.1 + 1, r.2.2 + durMs)

/-- Sets a condition's status, touching its transition time. -/
def Condition.setStatus (c : Condition) (st : CondStatus) (now : Int) : Condition :=
  { c with status := st, lastUpdated := some now }

/-- Go `BackupConditionCompleted.True(b)` (inside the condition `Do` helper). -/
def setCompletedTrue (b : EtcdBackup) (now : Int) : EtcdBackup :=
  { b with completed := b.completed.setStatus CondStatus.isTrue now }

/-- Go `BackupConditionCompleted.False(b)` followed by
`ReasonAndMessageFromError(b, err)`. -/
def setCompletedFalse (b : EtcdBackup) (err : String) (now : Int) : EtcdBackup :=
  { b with completed :=
      { status := CondStatus.isFalse, reason := "Error",
        message := err, lastUpdated := some now } }

/-- Go `BackupConditionCreated.True(b)`. -/
def setCreatedTrue (b : EtcdBackup) (now : Int) : EtcdBackup :=
  { b with created := b.created.setStatus CondStatus.isTrue now }

/-- Go `BackupConditionCompleted.Unknown(b)`. -/
def setCompletedUnknown (b : EtcdBackup) (now : Int) : EtcdBackup :=
  { b with completed := b.completed.setStatus CondStatus.unknown now }

/-- Environment (external-call oracles) for the `Create` lifecycle hook and
`etcdSaveWithBackoff`. `saveResult i` is the outcome of the `i`-th
`ETCDSave` attempt (`none` = success, `some e` = error `e`). -/
structure CreateEnv where
  now : Int := 0
  nowStr : String := ""
  getCluster : Option Cluster := none
  driverOK : Bool := true
  getCluster2 : Option Cluster := none
  saveResult : Nat → Option String := fun _ => none
  update1OK : Bool := true
  update2OK : Bool := true

/-- Observable side effects of one `Create` hook invocation. -/
structure CreateTrace where
  saveAttempts : Nat := 0
  filenameComputed : Bool := false
  condUpdates : Nat := 0
  clientUpdates : Nat := 0
  sleptMs : Nat := 0
  deriving DecidableEq, Repr

/-- Side effects of `etcdSaveWithBackoff` alone. -/
structure SaveTrace where
  saveAttempts : Nat := 0
  condUpdates : Nat := 0
  sleptMs : Nat := 0
  deriving DecidableEq, Repr

/-- Go `Controller.etcdSaveWithBackoff`. The condition helper
`BackupConditionCompleted.Do` is modelled from the spec: on success of the
wrapped function it sets Completed True; on error the caller explicitly sets
Completed False with reason/message from the error. The backoff loop keeps
the last save error in `inErr` and returns it from the wrapped function, so
exhaustion surfaces the last observed save failure. -/
def etcdSaveWithBackoff (env : CreateEnv) (b : EtcdBackup) :
    EtcdBackup × Option String × SaveTrace :=
  let backoff := getBackoff
  if !env.driverOK then
    (b, some "kontainer driver get failed", {})
  else
    match env.getCluster2 with
    | none =>
      -- the inner function returns the get error; `Do` propagates it and
      -- the caller sets Completed False from it
      (setCompletedFalse b "cluster get failed" env.now,
       some "cluster get failed", { condUpdates := 1 })
    | some _ =>
      let r := backoffLoop env.saveResult backoff.durationMs backoff.factor backoff.steps 0
      match r.1 with
      | none =>
        (setCompletedTrue b env.now, none,
         { saveAttempts := r.2.1, condUpdates := 1, sleptMs := r.2.2 })
      | some e =>
        (setCompletedFalse b e env.now, some e,
         { saveAttempts := r.2.1, condUpdates := 1, sleptMs := r.2.2 })

/-- Go `Controller.Create`: the backup lifecycle create hook, returning the
(possibly updated) object, the hook error, and the observable effects. -/
def createHook (env : CreateEnv) (b : EtcdBackup) :
    EtcdBackup × Option String × CreateTrace :=
  if b.completed.status = CondStatus.isFalse ∨ b.completed.status = CondStatus.isTrue then
    (b, none, {})
  else
    match env.getCluster with
    | none => (b, some "cluster get failed", {})
    | some cluster =>
      match clusterBackupConfig cluster with
      | none => (b, some "[etcd-backup] cluster doesn't have a backup config", {})
      | some bc =>
        let step1 : EtcdBackup × Option String × CreateTrace :=
          if b.created.status ≠ CondStatus.isTrue then
            let b1 := { b with
              filename := generateBackupFilename b.name env.nowStr (some bc),
              backupConfig := bc }
            let b2 := setCompletedUnknown (setCreatedTrue b1 env.now) env.now
            if env.update1OK then
              (b2, none, { filenameComputed := true, condUpdates := 2, clientUpdates := 1 })
            else
              (b2, some "update failed",
               { filenameComputed := true, condUpdates := 2, clientUpdates := 1 })
          else (b, none, {})
        match step1 with
        | (b1, some e, tr) => (b1, some e, tr)
        | (b1, none, tr) =>
          let s := etcdSaveWithBackoff env b1
          let tr1 : CreateTrace :=
            { saveAttempts := s.2.2.saveAttempts,
              filenameComputed := tr.filenameComputed,
              condUpdates := tr.condUpdates + s.2.2.condUpdates,
              clientUpdates := tr.clientUpdates + 1,
              sleptMs := s.2.2.sleptMs }
          if env.update2OK then
            match s.2.1 with
            | some e =>
              (s.1, some ("[etcd-backup] failed to perform etcd backup: " ++ e), tr1)
            | none => (s.1, none, tr1)
          else (s.1, some "update failed", tr1)

/-- Environment for the `Remove` lifecycle hook. `snapshotRemoveResult i`
is the outcome of `ETCDRemoveSnapshot` attempt `i`; `s3DeleteResult i` is
the outcome of the `i`-th `deleteS3Snapshot` call in the flat retry loop. -/
structure RemoveEnv where
  driverOK : Bool := true
  getClusterOK : Bool := true
  snapshotRemoveResult : Nat → Option String := fun _ => none
  s3DeleteResult : Nat → Option String := fun _ => none

/-- Side effects of one `Remove` hook invocation. -/
structure RemoveTrace where
  s3DeleteAttempts : Nat := 0
  s3SleptMs : Nat := 0
  deriving DecidableEq, Repr

/-- Go `Controller.etcdRemoveSnapshotWithBackoff`: driver/cluster lookups then
`wait.ExponentialBackoff`; the backoff call returns nil on a successful
attempt and `ErrWaitTimeout` on exhaustion (the per-attempt errors are only
logged). -/
def etcdRemoveSnapshotWithBackoff (env : RemoveEnv) : Option String :=
  let backoff := getBackoff
  if !env.driverOK then some "kontainer driver get failed"
  else if !env.getClusterOK then some "cluster get failed"
  else
    let r := backoffLoop env.snapshotRemoveResult backoff.durationMs backoff.factor backoff.steps 0
    match r.1 with
    | none => none
    | some _ => some "timed out waiting for the condition"

/-- The flat `for i := 0; i < 3; i++` S3 delete retry in `Remove`: stop at
the first success, otherwise sleep 5s after every failure (including the
last) and keep the last error. Returns `(delErr, attempts, sleptMs)`. -/
def s3DeleteLoop (attemptResult : Nat → Option String) :
    Nat → Nat → Option String × Nat × Nat
  | 0, _ => (none, 0, 0)
  | remaining + 1, i =>
    match attemptResult i with
    | none => (none, 1, 0)
    | some e =>
      match remaining with
      | 0 => (some e, 1, 5000)
      | r + 1 =>
        let rest := s3DeleteLoop attemptResult (r + 1) (i + 1)
        (rest.1, rest.2.1 + 1, rest.2.2 + 5000)

/-- Go `Controller.Remove`: snapshot removal failure is logged and ignored;
when no S3 target is frozen on the backup the hook stops; otherwise the S3
delete is tried at most 3 times and its exhaustion is also only logged. In
every branch the hook returns the object with a nil error. -/
def removeHook (env : RemoveEnv) (b : EtcdBackup) :
    EtcdBackup × Option String × RemoveTrace :=
  let _snapshotErr := etcdRemoveSnapshotWithBackoff env
  if b.backupConfig.s3BackupConfig.isNone then
    (b, none, {})
  else
    let r := s3DeleteLoop env.s3DeleteResult 3 0
    -- a residual delErr is logged ("giving up"), never returned
    (b, none, { s3DeleteAttempts := r.2.1, s3SleptMs := r.2.2 })

/-- Go `NewBackupObject`: recurring/manual and local/s3 flags feed the
generate-name prefix; the spec records cluster id and the manual flag.
(The Go code dereferences the cluster's backup config to inspect
`S3BackupConfig`; callers guarantee it is set.) -/
def NewBackupObject (cluster : Cluster) (manual : Bool) : EtcdBackup :=
  let typeFlag := if manual then "m" else "r"
  let providerFlag :=
    match clusterBackupConfig cluster with
    | some bc => if bc.s3BackupConfig.isSome then "s" else "l"
    | none => "l"
  { name := "",
    namespaceName := cluster.name,
    generateName := cluster.name ++ "-" ++ typeFlag ++ providerFlag ++ "-",
    clusterID := cluster.name,
    manual := manual }

/-- Go `Controller.createNewBackup`: build the recurring backup object
(`manual = false`) and set Created Unknown if absent before the client
create call. -/
def createNewBackup (cluster : Cluster) (now : Int) : EtcdBackup :=
  let nb := NewBackupObject cluster false
  { nb with created := nb.created.setStatus CondStatus.unknown now }

/-- Environment for one cluster's sweep-tick processing
(`doClusterBackupSync`). `listResult` is the backup lister's answer over the
cluster namespace (`none` = list error); `createOK` is the outcome of
`backupClient.Create`; `deleteResult` the outcome of
`backupClient.DeleteNamespaced` per backup. -/
structure SyncEnv where
  now : Int := 0
  listResult : Option (List EtcdBackup) := none
  createOK : Bool := true
  deleteResult : EtcdBackup → Option String := fun _ => none

/-- Observable side effects of one cluster's sweep-tick processing:
backups actually created and backups actually deleted, in order. -/
structure SyncTrace where
  createdBackups : List EtcdBackup := []
  deletedBackups : List EtcdBackup := []
  deriving DecidableEq, Repr

/-- Go `Controller.getRecuringBackupsList`: list then drop manual backups. -/
def getRecuringBackupsList (env : SyncEnv) : Option (List EtcdBackup) :=
  match env.listResult with
  | none => none
  | some backups => some (backups.filter (fun backup => !backup.manual))

/-- The deletion loop of `Controller.rotateExpiredBackups`: skip manual
backups, delete the rest one by one, abort on the first delete error.
Returns the error (if any) and the backups deleted before it. -/
def rotateLoop (deleteResult : EtcdBackup → Option String) :
    List EtcdBackup → Option String × List EtcdBackup
  | [] => (none, [])
  | backup :: rest =>
    if backup.manual then rotateLoop deleteResult rest
    else
      match deleteResult backup with
      | some e => (some e, [])
      | none =>
        let r := rotateLoop deleteResult rest
        (r.1, backup :: r.2)

/-- Go `Controller.rotateExpiredBackups`: read retention/interval off the
cluster's backup config (the Go code dereferences it; callers guarantee it
is set, the model defaults absent fields to 0) and delete the expired
backups. -/
def rotateExpiredBackups (env : SyncEnv) (cluster : Cluster)
    (clusterBackups : List EtcdBackup) : Option String × List EtcdBackup :=
  let retention := ((clusterBackupConfig cluster).map (fun bc => bc.retention)).getD 0
  let intervalHours := ((clusterBackupConfig cluster).map (fun bc => bc.intervalHours)).getD 0
  rotateLoop env.deleteResult (getExpiredBackups env.now retention intervalHours clusterBackups)

/-- The fold of `doClusterBackupSync` that finds the backup with the latest
Completed transition time (strictly-later wins, first element is the seed). -/
def findNewest :  EtcdBackup → List EtcdBackup → EtcdBackup
  | cur, [] => cur
  | cur, backup :: rest =>
    findNewest (if getBackupCompletedTime backup > getBackupCompletedTime cur then backup else cur) rest

/-- Go `Controller.doClusterBackupSync`: one cluster's processing within a
sweep tick — eligibility gates, first-backup creation, due-time decision,
then rotation. -/
def doClusterBackupSync (env : SyncEnv) (cluster : Cluster) :
    Option String × SyncTrace :=
  if cluster.deletionTimestamp.isSome then (none, {})
  else if !shouldBackup cluster then (none, {})
  else
    match getRecuringBackupsList env with
    | none => (some "list failed", {})
    | some clusterBackups =>
      match clusterBackups with
      | [] =>
        let nb := createNewBackup cluster env.now
        if env.createOK then (none, { createdBackups := [nb] })
        else (some "[etcd-backup] Backup create failed", {})
      | first :: rest =>
        let newestBackup := findNewest first rest
        let intervalHours :=
          ((clusterBackupConfig cluster).map (fun bc => bc.intervalHours)).getD 0
        let due := env.now - getBackupCompletedTime newestBackup > intervalHours * hourSeconds
        if due then
          let nb := createNewBackup cluster env.now
          if !env.createOK then (some "[etcd-backup] Backup create failed", {})
          else
            let r := rotateExpiredBackups env cluster clusterBackups
            (r.1, { createdBackups := [nb], deletedBackups := r.2 })
        else
          let r := rotateExpiredBackups env cluster clusterBackups
          (r.1, { createdBackups := [], deletedBackups := r.2 })

/-- Credential mode handed to the minio client constructor. -/
inductive CredsType where
  | iam
  | staticKeys (accessKey secretKey : String)
  deriving DecidableEq, Repr

/-- Go `minio.BucketLookupType` values the source uses. -/
inductive BucketLookupType where
  | auto
  | dns
  deriving DecidableEq, Repr

/-- Substring test (`strings.Contains`). -/
def charsStartWith : List Char → List Char → Bool
  | _, [] => true
  | [], _ :: _ => false
  | a :: as, b :: bs => a == b && charsStartWith as bs

/-- Does `pat` occur inside `l`? -/
def charsContain : List Char → List Char → Bool
  | l, pat =>
    match l with
    | [] => pat.isEmpty
    | _ :: t => charsStartWith l pat || charsContain t pat

/-- Go `strings.Contains(s, pat)`. -/
def strContains (s pat : String) : Bool :=
  charsContain s.data pat.data

/-- Go `getBucketLookupType`. -/
def getBucketLookupType (endpoint : String) : BucketLookupType :=
  if endpoint = "" then BucketLookupType.auto
  else if strContains endpoint "aliyun" then BucketLookupType.dns
  else BucketLookupType.auto

/-- The configuration `GetS3Client` passes to `minio.NewWithOptions` plus
the custom transport it may install afterwards. -/
structure S3ClientConfig where
  creds : CredsType
  endpoint : String
  region : String
  secure : Bool
  bucketLookup : BucketLookupType
  customCA : Option String
  deriving DecidableEq, Repr

/-- Go `GetS3Client` (its pure decision logic; the minio constructor itself is
an external call and its failure mode is not modelled). Empty access or
secret key selects IAM credentials, and only on that path an empty endpoint
falls back to `s3Endpoint`. -/
def GetS3Client (sbc : Option S3BackupConfig) : Except String S3ClientConfig :=
  match sbc with
  | none => Except.error "Can't find S3 backup target configuration"
  | some sbc =>
    let endpoint0 := sbc.endpoint
    let credsEndpoint : CredsType × String :=
      if sbc.accessKey = "" ∨ sbc.secretKey = "" then
        (CredsType.iam, if sbc.endpoint = "" then s3Endpoint else endpoint0)
      else
        (CredsType.staticKeys sbc.accessKey sbc.secretKey, endpoint0)
    let bucketLookup := getBucketLookupType credsEndpoint.2
    Except.ok
      { creds := credsEndpoint.1,
        endpoint := credsEndpoint.2,
        region := sbc.region,
        secure := true,
        bucketLookup := bucketLookup,
        customCA := if sbc.customCA ≠ "" then some sbc.customCA else none }

/-! ## Concrete objects used by witnesses and counterexamples -/

/-- A non-manual backup whose Completed condition transitioned at instant `t`. -/
def backupAged (t : Int) : EtcdBackup :=
  { completed := { lastUpdated := some t } }

/-- A manual backup whose Completed condition transitioned at instant 0. -/
def manualExpiredBackup : EtcdBackup :=
  { manual := true, completed := { lastUpdated := some 0 } }

/-! ## Claim theorems -/

/-- **C5.** A backup is in `getExpiredBackups` exactly when `now` minus its
Completed transition time strictly exceeds `retention * intervalHours`
hours; concretely, with retention 3 and intervalHours 24 (a 72-hour
window), at `now = 360000` a backup completed 100 hours ago (time 0) is
expired and one completed 50 hours ago (time 180000) is not. -/
theorem expired_iff_age_exceeds_window :
    (∀ (now retention intervalHours : Int) (backups : List EtcdBackup) (b : EtcdBackup),
       b ∈ getExpiredBackups now retention intervalHours backups ↔
         b ∈ backups ∧
           now - getBackupCompletedTime b > retention * intervalHours * hourSeconds) ∧
    backupAged 0 ∈ getExpiredBackups 360000 3 24 [backupAged 0, backupAged 180000] ∧
    backupAged 180000 ∉ getExpiredBackups 360000 3 24 [backupAged 0, backupAged 180000] := by
  refine ⟨fun now retention intervalHours backups b => ?_, by decide, by decide⟩
  simp [getExpiredBackups, List.mem_filter]

/-- **C5 witness.** The general membership characterisation applied at a
concrete input. -/
theorem expired_iff_age_exceeds_window_witness :
    backupAged 0 ∈ getExpiredBackups 360000 3 24 [backupAged 0] := by
  have h := expired_iff_age_exceeds_window.1 360000 3 24 [backupAged 0] (backupAged 0)
  exact h.mpr ⟨by decide, by decide⟩

/-- **C8.** With a nil policy the generated filename is empty; with a
non-nil policy and no S3 target, the filename is
`<name>_<timestamp>.<extension>`; with `safeTimestamp` every `:` is
replaced by `-` so the result contains no `:`, and without it the
timestamp is embedded verbatim. -/
theorem generateBackupFilename_local_spec (name ts : String) (bc : BackupConfig)
    (hs3 : bc.s3BackupConfig = none) :
    generateBackupFilename name ts none = "" ∧
    (bc.safeTimestamp = false →
       generateBackupFilename name ts (some bc) =
         name ++ "_" ++ ts ++ "." ++ compressedExtension) ∧
    (bc.safeTimestamp = true →
       generateBackupFilename name ts (some bc) =
         replaceColons (name ++ "_" ++ ts ++ "." ++ compressedExtension) ∧
       ∀ c ∈ (generateBackupFilename name ts (some bc)).data, c ≠ ':') := by
  refine ⟨rfl, ?_, ?_⟩
  · intro hsafe
    simp [generateBackupFilename, hsafe, hs3]
  · intro hsafe
    refine ⟨by simp [generateBackupFilename, hsafe, hs3], ?_⟩
    intro c hc
    simp only [generateBackupFilename, hsafe, hs3, if_true, replaceColons] at hc
    rcases List.mem_map.mp hc with ⟨a, _, ha⟩
    by_cases hcol : a = ':'
    · simp [hcol] at ha
      rw [← ha]
      decide
    · simp [hcol] at ha
      rw [← ha]
      exact hcol

/-- **C8 witness.** The local-filename specification instantiated at a
concrete snapshot name and RFC3339 timestamp containing colons. -/
theorem generateBackupFilename_local_spec_witness :
    generateBackupFilename "b1" "2020-01-02T03:04:05Z"
        (some { safeTimestamp := true }) =
      replaceColons ("b1" ++ "_" ++ "2020-01-02T03:04:05Z" ++ "." ++ compressedExtension) ∧
    generateBackupFilename "b1" "2020-01-02T03:04:05Z"
        (some { safeTimestamp := false }) =
      "b1" ++ "_" ++ "2020-01-02T03:04:05Z" ++ "." ++ compressedExtension := by
  have h1 := generateBackupFilename_local_spec "b1" "2020-01-02T03:04:05Z"
    { safeTimestamp := true } rfl
  have h2 := generateBackupFilename_local_spec "b1" "2020-01-02T03:04:05Z"
    { safeTimestamp := false } rfl
  exact ⟨(h1.2.2 rfl).1, h2.2.1 rfl⟩

/-- **C3 counterexample.** `getExpiredBackups` does not exclude manual
backups: a manual backup old enough for the window is returned by the
expired-backups computation. -/
theorem getExpiredBackups_returns_manual :
    manualExpiredBackup ∈ getExpiredBackups 1000000 1 1 [manualExpiredBackup] ∧
    manualExpiredBackup.manual = true := by
  exact ⟨by decide, rfl⟩

/-- Every backup the rotation loop deletes is non-manual. -/
lemma rotateLoop_deleted_nonmanual (del : EtcdBackup → Option String) :
    ∀ l : List EtcdBackup, ((rotateLoop del l).2.all (fun b => !b.manual)) = true := by
  intro l
  induction l with
  | nil => rfl
  | cons b rest ih =>
    simp only [rotateLoop]
    split
    · exact ih
    · rename_i hm
      split
      · rfl
      · simp only [List.all_cons, ih, Bool.and_true]
        simp at hm
        simp [hm]

/-- **C3 (amended).** Rotation never deletes a manual backup: every backup
in the deleted list produced by `rotateExpiredBackups` is non-manual — the
manual exclusion happens at deletion time inside the rotation loop, not in
`getExpiredBackups` itself. -/
theorem rotation_never_deletes_manual (env : SyncEnv) (cluster : Cluster)
    (backups : List EtcdBackup) :
    ((rotateExpiredBackups env cluster backups).2.all (fun b => !b.manual)) = true := by
  unfold rotateExpiredBackups
  exact rotateLoop_deleted_nonmanual env.deleteResult _

/-- **C9 counterexample.** With static credentials (both keys non-empty)
and an empty endpoint, `GetS3Client` keeps the empty endpoint instead of
substituting the default `s3.amazonaws.com`: the endpoint default is
applied only on the absent-credentials (IAM) path. -/
theorem getS3Client_static_empty_endpoint :
    GetS3Client (some { accessKey := "AKID", secretKey := "SECRET" }) =
      Except.ok
        { creds := CredsType.staticKeys "AKID" "SECRET", endpoint := "",
          region := "", secure := true, bucketLookup := BucketLookupType.auto,
          customCA := none } ∧
    (S3BackupConfig.endpoint { accessKey := "AKID", secretKey := "SECRET" } = "") ∧
    ("" : String) ≠ s3Endpoint := by
  refine ⟨?_, rfl, by decide⟩
  rfl

/-- **C9 (amended).** Absent credentials (empty access or secret key)
select IAM authentication, and only on that path does an empty endpoint
default to `s3Endpoint`; with both keys set, static credentials are used
and the endpoint is passed through verbatim (empty stays empty). -/
theorem getS3Client_endpoint_spec (sbc : S3BackupConfig) :
    (sbc.accessKey = "" ∨ sbc.secretKey = "" →
       GetS3Client (some sbc) =
         Except.ok
           { creds := CredsType.iam,
             endpoint := if sbc.endpoint = "" then s3Endpoint else sbc.endpoint,
             region := sbc.region, secure := true,
             bucketLookup :=
               getBucketLookupType (if sbc.endpoint = "" then s3Endpoint else sbc.endpoint),
             customCA := if sbc.customCA ≠ "" then some sbc.customCA else none }) ∧
    (¬(sbc.accessKey = "" ∨ sbc.secretKey = "") →
       GetS3Client (some sbc) =
         Except.ok
           { creds := CredsType.staticKeys sbc.accessKey sbc.secretKey,
             endpoint := sbc.endpoint, region := sbc.region, secure := true,
             bucketLookup := getBucketLookupType sbc.endpoint,
             customCA := if sbc.customCA ≠ "" then some sbc.customCA else none }) := by
  constructor
  · intro h
    simp only [GetS3Client, if_pos h]
  · intro h
    simp only [GetS3Client, if_neg h]

/-- **C9 witness.** The amended endpoint rule applied to a concrete
credential-less policy with an empty endpoint: the default endpoint is
substituted. -/
theorem getS3Client_endpoint_spec_witness :
    GetS3Client (some ({} : S3BackupConfig)) =
      Except.ok
        { creds := CredsType.iam, endpoint := s3Endpoint, region := "",
          secure := true, bucketLookup := getBucketLookupType s3Endpoint,
          customCA := none } := by
  have h := (getS3Client_endpoint_spec {}).1 (Or.inl rfl)
  simpa using h

/-- **C1.** A terminal backup (Completed already True or False) makes the
create hook a no-op: the object comes back unchanged with a nil error, and
no save attempt, filename computation, condition update, or client update
happens (the returned trace is the all-zero trace). -/
theorem create_terminal_noop (env : CreateEnv) (b : EtcdBackup)
    (h : b.completed.status = CondStatus.isFalse ∨ b.completed.status = CondStatus.isTrue) :
    createHook env b = (b, none, ({} : CreateTrace)) := by
  unfold createHook
  rw [if_pos h]

/-- A terminal backup used by the C1 witness. -/
def terminalBackup : EtcdBackup := { completed := { status := CondStatus.isFalse } }

/-- **C1 witness.** The terminal no-op applied to a concrete backup whose
Completed condition is False. -/
theorem create_terminal_noop_witness :
    createHook {} terminalBackup = (terminalBackup, none, ({} : CreateTrace)) :=
  create_terminal_noop {} terminalBackup (Or.inl rfl)

/-- Saving only touches the Completed condition: filename and the frozen
policy copy survive `etcdSaveWithBackoff` unchanged. -/
lemma etcdSaveWithBackoff_preserves (env : CreateEnv) (b : EtcdBackup) :
    (etcdSaveWithBackoff env b).1.filename = b.filename ∧
    (etcdSaveWithBackoff env b).1.backupConfig = b.backupConfig := by
  simp only [etcdSaveWithBackoff]
  split
  · exact ⟨rfl, rfl⟩
  · split
    · exact ⟨rfl, rfl⟩
    · split
      · exact ⟨rfl, rfl⟩
      · exact ⟨rfl, rfl⟩

/-- **C2.** On a backup whose Created condition is already True the create
hook neither recomputes the filename nor touches the frozen policy copy:
the returned object carries the stored filename/policy pair unchanged and
the naming step is not executed. -/
theorem create_no_filename_recompute (env : CreateEnv) (b : EtcdBackup)
    (h : b.created.status = CondStatus.isTrue) :
    (createHook env b).1.filename = b.filename ∧
    (createHook env b).1.backupConfig = b.backupConfig ∧
    (createHook env b).2.2.filenameComputed = false := by
  simp only [createHook]
  split
  · exact ⟨rfl, rfl, rfl⟩
  · split
    · exact ⟨rfl, rfl, rfl⟩
    · split
      · exact ⟨rfl, rfl, rfl⟩
      · rw [if_neg (by simp [h])]
        rcases hsave : etcdSaveWithBackoff env b with ⟨b2, serr, st⟩
        have hs := etcdSaveWithBackoff_preserves env b
        rw [hsave] at hs
        simp only [hsave]
        split
        · split
          · exact ⟨hs.1, hs.2, rfl⟩
          · exact ⟨hs.1, hs.2, rfl⟩
        · exact ⟨hs.1, hs.2, rfl⟩

/-- A backup with its filename and frozen policy already committed
(Created True), used by the C2 witness. -/
def namedBackup : EtcdBackup :=
  { name := "bk", filename := "bk_f.zip",
    backupConfig := { intervalHours := 12 },
    created := { status := CondStatus.isTrue } }

/-- **C2 witness.** The filename-immutability theorem applied to a
concrete already-Created backup. -/
theorem create_no_filename_recompute_witness :
    (createHook {} namedBackup).1.filename = "bk_f.zip" ∧
    (createHook {} namedBackup).2.2.filenameComputed = false := by
  have h := create_no_filename_recompute {} namedBackup rfl
  exact ⟨h.1, h.2.2⟩

/-- If the first attempt succeeds, the backoff loop stops at once. -/
lemma backoffLoop_none (res : Nat → Option String) (dur fac s i : Nat)
    (h : res i = none) :
    backoffLoop res dur fac (s + 1) i = (none, 1, 0) := by
  unfold backoffLoop
  rw [h]

/-- With one step left, a failed attempt ends the loop carrying its error. -/
lemma backoffLoop_last_fail (res : Nat → Option String) (dur fac i : Nat) (e : String)
    (h : res i = some e) :
    backoffLoop res dur fac 1 i = (some e, 1, 0) := by
  unfold backoffLoop
  rw [h]

/-- A failed attempt with steps remaining sleeps and retries with the
duration multiplied by the factor. -/
lemma backoffLoop_step_fail (res : Nat → Option String) (dur fac s i : Nat) (e : String)
    (h : res i = some e) :
    backoffLoop res dur fac (s + 2) i =
      ((backoffLoop res (dur * fac) fac (s + 1) (i + 1)).1,
       (backoffLoop res (dur * fac) fac (s + 1) (i + 1)).2.1 + 1,
       (backoffLoop res (dur * fac) fac (s + 1) (i + 1)).2.2 + dur) := by
  conv_lhs => unfold backoffLoop
  rw [h]

/-- The backoff loop returns success after exactly `k + 1` attempts when
attempt `k` (zero-based) is the first to succeed. -/
lemma backoffLoop_first_success (res : Nat → Option String) (fac : Nat) :
    ∀ (steps i k dur : Nat), k < steps → res (i + k) = none →
      (∀ j, j < k → (res (i + j)).isSome) →
      (backoffLoop res dur fac steps i).1 = none ∧
      (backoffLoop res dur fac steps i).2.1 = k + 1 := by
  intro steps
  induction steps with
  | zero => intro i k dur hk; exact absurd hk (Nat.not_lt_zero k)
  | succ s ih =>
    intro i k dur hk hsucc hall
    cases k with
    | zero =>
      have h0 : res i = none := by simpa using hsucc
      rw [backoffLoop_none res dur fac s i h0]
      exact ⟨rfl, rfl⟩
    | succ k' =>
      have h0 : (res i).isSome := by simpa using hall 0 (Nat.succ_pos k')
      obtain ⟨e, he⟩ := Option.isSome_iff_exists.mp h0
      cases s with
      | zero => omega
      | succ s' =>
        have ih' := ih (i + 1) k' (dur * fac) (by omega)
          (by rw [show i + 1 + k' = i + (k' + 1) by omega]; exact hsucc)
          (fun j hj => by
            rw [show i + 1 + j = i + (j + 1) by omega]
            exact hall (j + 1) (by omega))
        rw [backoffLoop_step_fail res dur fac s' i e he]
        exact ⟨ih'.1, by rw [ih'.2]⟩

/-- When every allowed attempt fails, the loop makes exactly `steps`
attempts and keeps the last attempt's error. -/
lemma backoffLoop_exhausted (res : Nat → Option String) (fac : Nat) :
    ∀ (steps i dur : Nat), 0 < steps → (∀ j, j < steps → (res (i + j)).isSome) →
      (backoffLoop res dur fac steps i).1 = res (i + (steps - 1)) ∧
      (backoffLoop res dur fac steps i).2.1 = steps := by
  intro steps
  induction steps with
  | zero => intro i dur h; omega
  | succ s ih =>
    intro i dur _ hall
    have h0 : (res i).isSome := by simpa using hall 0 (Nat.succ_pos s)
    obtain ⟨e, he⟩ := Option.isSome_iff_exists.mp h0
    cases s with
    | zero =>
      rw [backoffLoop_last_fail res dur fac i e he]
      refine ⟨?_, rfl⟩
      simpa using he.symm
    | succ s' =>
      have ih' := ih (i + 1) (dur * fac) (Nat.succ_pos s')
        (fun j hj => by
          rw [show i + 1 + j = i + (j + 1) by omega]
          exact hall (j + 1) (by omega))
      rw [backoffLoop_step_fail res dur fac s' i e he]
      constructor
      · rw [ih'.1]
        congr 1
        omega
      · rw [ih'.2]

/-- Characterisation of `etcdSaveWithBackoff` when the driver and cluster
lookups succeed: the outcome is decided by the backoff loop over the save
attempts, with `getBackoff`'s parameters (1000 ms, factor 2, 5 steps). -/
lemma etcdSaveWithBackoff_eq (env : CreateEnv) (b : EtcdBackup) (c : Cluster)
    (hdriver : env.driverOK = true) (hc : env.getCluster2 = some c) :
    etcdSaveWithBackoff env b =
      (match (backoffLoop env.saveResult 1000 2 5 0).1 with
       | none =>
         (setCompletedTrue b env.now, none,
          { saveAttempts := (backoffLoop env.saveResult 1000 2 5 0).2.1,
            condUpdates := 1,
            sleptMs := (backoffLoop env.saveResult 1000 2 5 0).2.2 })
       | some e =>
         (setCompletedFalse b e env.now, some e,
          { saveAttempts := (backoffLoop env.saveResult 1000 2 5 0).2.1,
            condUpdates := 1,
            sleptMs := (backoffLoop env.saveResult 1000 2 5 0).2.2 })) := by
  unfold etcdSaveWithBackoff
  rw [hdriver, hc]
  rfl

/-- **C6.** The save is retried through `getBackoff` (1 s base, factor 2,
zero jitter, at most 5 attempts): the retry returns success as soon as an
attempt succeeds (first success at zero-based attempt `k` means exactly
`k + 1` invocations, Completed True); when all 5 attempts fail the last
observed failure is returned, exactly 5 invocations happen and Completed
ends False. The claim's scenario (failures on attempts 1-4, success on
attempt 5, hence exactly 5 invocations and Completed True) is the `k = 4`
instance. -/
theorem etcdSave_backoff_spec (env : CreateEnv) (b : EtcdBackup)
    (hdriver : env.driverOK = true) (hcl : env.getCluster2.isSome) :
    getBackoff = { durationMs := 1000, factor := 2, jitter := 0, steps := 5 } ∧
    (∀ k, k < 5 → env.saveResult k = none →
       (∀ j, j < k → (env.saveResult j).isSome) →
       (etcdSaveWithBackoff env b).2.1 = none ∧
       (etcdSaveWithBackoff env b).2.2.saveAttempts = k + 1 ∧
       (etcdSaveWithBackoff env b).1.completed.status = CondStatus.isTrue) ∧
    ((∀ j, j < 5 → (env.saveResult j).isSome) →
       (etcdSaveWithBackoff env b).2.1 = env.saveResult 4 ∧
       (etcdSaveWithBackoff env b).2.2.saveAttempts = 5 ∧
       (etcdSaveWithBackoff env b).1.completed.status = CondStatus.isFalse) := by
  obtain ⟨c, hc⟩ := Option.isSome_iff_exists.mp hcl
  refine ⟨rfl, ?_, ?_⟩
  · intro k hk hsucc hall
    have hloop := backoffLoop_first_success env.saveResult 2 5 0 k 1000 hk
      (by simpa using hsucc) (fun j hj => by simpa using hall j hj)
    rw [etcdSaveWithBackoff_eq env b c hdriver hc]
    rw [hloop.1]
    exact ⟨rfl, hloop.2, rfl⟩
  · intro hall
    have hloop := backoffLoop_exhausted env.saveResult 2 5 0 1000 (by omega)
      (fun j hj => by simpa using hall j hj)
    obtain ⟨e4, he4⟩ := Option.isSome_iff_exists.mp (hall 4 (by omega))
    have h1 : (backoffLoop env.saveResult 1000 2 5 0).1 = some e4 := by
      rw [hloop.1]
      simpa using he4
    rw [etcdSaveWithBackoff_eq env b c hdriver hc]
    rw [h1]
    exact ⟨by rw [he4], hloop.2, rfl⟩


/-- Save oracle for the C6 witness: attempts 1-4 (zero-based 0-3) fail,
attempt 5 succeeds. -/
def saveScenarioEnv : CreateEnv :=
  { getCluster2 := some {},
    saveResult := fun i => if i < 4 then some "save failed" else none }

/-- **C6 witness.** The retry specification applied to the concrete
fail-four-times-then-succeed scenario: exactly 5 save invocations, no
error, Completed True. -/
theorem etcdSave_backoff_spec_witness :
    (etcdSaveWithBackoff saveScenarioEnv {}).2.1 = none ∧
    (etcdSaveWithBackoff saveScenarioEnv {}).2.2.saveAttempts = 5 ∧
    (etcdSaveWithBackoff saveScenarioEnv {}).1.completed.status = CondStatus.isTrue := by
  have h := (etcdSave_backoff_spec saveScenarioEnv {} rfl rfl).2.1 4
    (by omega) rfl (fun j hj => by simp [saveScenarioEnv, hj])
  exact h

/-- A successful S3 delete attempt ends the flat retry loop at once. -/
lemma s3DeleteLoop_success (res : Nat → Option String) (n i : Nat)
    (h : res i = none) :
    s3DeleteLoop res (n + 1) i = (none, 1, 0) := by
  unfold s3DeleteLoop
  rw [h]

/-- A failed S3 delete attempt with one try left still sleeps 5 s and
keeps its error. -/
lemma s3DeleteLoop_one_fail (res : Nat → Option String) (i : Nat) (e : String)
    (h : res i = some e) :
    s3DeleteLoop res 1 i = (some e, 1, 5000) := by
  unfold s3DeleteLoop
  rw [h]

/-- A failed S3 delete attempt with tries remaining sleeps 5 s and
retries. -/
lemma s3DeleteLoop_step_fail (res : Nat → Option String) (n i : Nat) (e : String)
    (h : res i = some e) :
    s3DeleteLoop res (n + 2) i =
      ((s3DeleteLoop res (n + 1) (i + 1)).1,
       (s3DeleteLoop res (n + 1) (i + 1)).2.1 + 1,
       (s3DeleteLoop res (n + 1) (i + 1)).2.2 + 5000) := by
  conv_lhs => unfold s3DeleteLoop
  rw [h]

/-- The flat retry loop never makes more attempts than allowed. -/
lemma s3DeleteLoop_attempts_le (res : Nat → Option String) :
    ∀ n i, (s3DeleteLoop res n i).2.1 ≤ n := by
  intro n
  induction n with
  | zero => intro i; exact Nat.le_refl 0
  | succ m ih =>
    intro i
    cases hres : res i with
    | none =>
      rw [s3DeleteLoop_success res m i hres]
      exact Nat.succ_le_succ (Nat.zero_le m)
    | some e =>
      cases m with
      | zero =>
        rw [s3DeleteLoop_one_fail res i e hres]
      | succ m' =>
        rw [s3DeleteLoop_step_fail res m' i e hres]
        exact Nat.add_le_add_right (ih (i + 1)) 1

/-- Three failing S3 delete attempts exhaust the loop: 3 attempts,
15 s of flat 5-second pauses, last error kept (and then only logged). -/
lemma s3DeleteLoop_exhaust3 (res : Nat → Option String) (e0 e1 e2 : String)
    (h0 : res 0 = some e0) (h1 : res 1 = some e1) (h2 : res 2 = some e2) :
    s3DeleteLoop res 3 0 = (some e2, 3, 15000) := by
  have hstep0 := s3DeleteLoop_step_fail res 1 0 e0 h0
  have hstep1 := s3DeleteLoop_step_fail res 0 1 e1 h1
  have hlast := s3DeleteLoop_one_fail res 2 e2 h2
  norm_num at hstep0 hstep1
  rw [hstep0, hstep1, hlast]

/-- **C7.** The remove hook never propagates an error: it always returns
the object with a nil error (snapshot-removal retry exhaustion is only
logged), the remote-artifact deletion is attempted at most 3 times, and
when the backup has an S3 target and all 3 attempts fail the hook has
made exactly 3 attempts with 5-second pauses (15 s total) and still
returns nil. -/
theorem remove_never_propagates (env : RemoveEnv) (b : EtcdBackup) :
    (removeHook env b).1 = b ∧
    (removeHook env b).2.1 = none ∧
    (removeHook env b).2.2.s3DeleteAttempts ≤ 3 ∧
    (b.backupConfig.s3BackupConfig.isSome = true →
      (∀ i, i < 3 → (env.s3DeleteResult i).isSome) →
      (removeHook env b).2.2.s3DeleteAttempts = 3 ∧
      (removeHook env b).2.2.s3SleptMs = 15000) := by
  rcases hs3 : b.backupConfig.s3BackupConfig with _ | s3cfg
  · have hred : removeHook env b = (b, none, {}) := by
      unfold removeHook
      rw [hs3]
      rfl
    rw [hred]
    refine ⟨rfl, rfl, Nat.zero_le 3, ?_⟩
    intro habs
    exact Bool.noConfusion habs
  · have hred : removeHook env b =
        (b, none,
         { s3DeleteAttempts := (s3DeleteLoop env.s3DeleteResult 3 0).2.1,
           s3SleptMs := (s3DeleteLoop env.s3DeleteResult 3 0).2.2 }) := by
      unfold removeHook
      rw [hs3]
      rfl
    rw [hred]
    refine ⟨rfl, rfl, s3DeleteLoop_attempts_le env.s3DeleteResult 3 0, ?_⟩
    intro _ hall
    obtain ⟨e0, h0⟩ := Option.isSome_iff_exists.mp (hall 0 (by omega))
    obtain ⟨e1, h1⟩ := Option.isSome_iff_exists.mp (hall 1 (by omega))
    obtain ⟨e2, h2⟩ := Option.isSome_iff_exists.mp (hall 2 (by omega))
    rw [s3DeleteLoop_exhaust3 env.s3DeleteResult e0 e1 e2 h0 h1 h2]
    exact ⟨rfl, rfl⟩

/-- Environment for the C7 witness: every S3 delete attempt fails. -/
def removeFailEnv : RemoveEnv := { s3DeleteResult := fun _ => some "delete failed" }

/-- A backup with a frozen S3 target, used by the C7 witness. -/
def s3Backup : EtcdBackup := { backupConfig := { s3BackupConfig := some {} } }

/-- **C7 witness.** All three S3 delete attempts fail on a concrete
backup with an S3 target: the hook still returns no error after exactly
3 attempts. -/
theorem remove_never_propagates_witness :
    (removeHook removeFailEnv s3Backup).2.1 = none ∧
    (removeHook removeFailEnv s3Backup).2.2.s3DeleteAttempts = 3 := by
  have h := remove_never_propagates removeFailEnv s3Backup
  exact ⟨h.2.1, (h.2.2.2 rfl (fun i hi => rfl)).1⟩


/-- The latest Completed transition time of a non-empty backup list
(spec-side formulation: max over the list, seeded by the first element). -/
def latestCompletedTime (first : EtcdBackup) (rest : List EtcdBackup) : Int :=
  rest.foldl (fun acc b => max acc (getBackupCompletedTime b)) (getBackupCompletedTime first)

/-- The strictly-later fold of `doClusterBackupSync` computes exactly the
maximum Completed transition time. -/
lemma findNewest_time (l : List EtcdBackup) :
    ∀ cur, getBackupCompletedTime (findNewest cur l) =
      l.foldl (fun acc b => max acc (getBackupCompletedTime b)) (getBackupCompletedTime cur) := by
  induction l with
  | nil => intro cur; rfl
  | cons b rest ih =>
    intro cur
    rw [findNewest, List.foldl_cons, ih]
    congr 1
    by_cases h : getBackupCompletedTime b > getBackupCompletedTime cur
    · rw [if_pos h]
      exact (max_eq_right (le_of_lt h)).symm
    · rw [if_neg h]
      exact (max_eq_left (not_lt.mp h)).symm

/-- A successful backup listing yields the list with manual backups
dropped. -/
lemma getRecuringBackupsList_eq (env : SyncEnv) (bs : List EtcdBackup)
    (hlist : env.listResult = some bs) :
    getRecuringBackupsList env = some (bs.filter (fun backup => !backup.manual)) := by
  unfold getRecuringBackupsList
  rw [hlist]

/-- An eligible cluster whose recurring-backup list is empty creates
exactly one new backup and returns without rotating. -/
lemma doClusterBackupSync_eq_empty (env : SyncEnv) (cluster : Cluster)
    (bs : List EtcdBackup)
    (hdel : cluster.deletionTimestamp = none)
    (helig : shouldBackup cluster = true)
    (hlist : env.listResult = some bs)
    (hfilter : bs.filter (fun backup => !backup.manual) = [])
    (hcreate : env.createOK = true) :
    doClusterBackupSync env cluster =
      (none, { createdBackups := [createNewBackup cluster env.now] }) := by
  unfold doClusterBackupSync
  rw [hdel, helig, getRecuringBackupsList_eq env bs hlist, hfilter, hcreate]
  rfl

/-- With existing recurring backups, the sweep reduces to the due-time
decision over the newest Completed time, followed by rotation. -/
lemma doClusterBackupSync_eq_cons (env : SyncEnv) (cluster : Cluster)
    (bc : BackupConfig) (bs : List EtcdBackup) (first : EtcdBackup)
    (rest : List EtcdBackup)
    (hdel : cluster.deletionTimestamp = none)
    (helig : shouldBackup cluster = true)
    (hbc : clusterBackupConfig cluster = some bc)
    (hlist : env.listResult = some bs)
    (hfilter : bs.filter (fun backup => !backup.manual) = first :: rest)
    (hcreate : env.createOK = true) :
    doClusterBackupSync env cluster =
      (if env.now - getBackupCompletedTime (findNewest first rest) >
           bc.intervalHours * hourSeconds then
         ((rotateExpiredBackups env cluster (first :: rest)).1,
          { createdBackups := [createNewBackup cluster env.now],
            deletedBackups := (rotateExpiredBackups env cluster (first :: rest)).2 })
       else
         ((rotateExpiredBackups env cluster (first :: rest)).1,
          { createdBackups := [],
            deletedBackups := (rotateExpiredBackups env cluster (first :: rest)).2 })) := by
  unfold doClusterBackupSync
  rw [hdel, helig, getRecuringBackupsList_eq env bs hlist, hfilter, hbc, hcreate]
  rfl

/-- **C4.** For an eligible cluster processed by a sweep tick: every
backup the tick creates is non-manual; with zero non-manual backups
exactly one new backup object is created unconditionally; otherwise a
backup is created iff `now` minus the latest Completed transition time
among the non-manual backups exceeds `intervalHours` hours; and a backup
with an unparseable Completed timestamp gets the zero time (so it counts
as oldest). -/
theorem doClusterBackupSync_due_spec (env : SyncEnv) (cluster : Cluster)
    (bc : BackupConfig) (bs : List EtcdBackup)
    (hdel : cluster.deletionTimestamp = none)
    (helig : shouldBackup cluster = true)
    (hbc : clusterBackupConfig cluster = some bc)
    (hlist : env.listResult = some bs)
    (hcreate : env.createOK = true) :
    (∀ x ∈ (doClusterBackupSync env cluster).2.createdBackups, x.manual = false) ∧
    (bs.filter (fun backup => !backup.manual) = [] →
       (doClusterBackupSync env cluster).2.createdBackups =
         [createNewBackup cluster env.now]) ∧
    (∀ first rest, bs.filter (fun backup => !backup.manual) = first :: rest →
       (doClusterBackupSync env cluster).2.createdBackups.length =
         (if env.now - latestCompletedTime first rest > bc.intervalHours * hourSeconds
          then 1 else 0)) ∧
    (∀ b : EtcdBackup, b.completed.lastUpdated = none → getBackupCompletedTime b = 0) := by
  refine ⟨?_, ?_, ?_, fun b hb => by simp [getBackupCompletedTime, hb]⟩
  · intro x hx
    cases hfilter : bs.filter (fun backup => !backup.manual) with
    | nil =>
      rw [doClusterBackupSync_eq_empty env cluster bs hdel helig hlist hfilter hcreate] at hx
      simp only [List.mem_singleton] at hx
      rw [hx]
      rfl
    | cons first rest =>
      rw [doClusterBackupSync_eq_cons env cluster bc bs first rest
        hdel helig hbc hlist hfilter hcreate] at hx
      by_cases hdue : env.now - getBackupCompletedTime (findNewest first rest) >
          bc.intervalHours * hourSeconds
      · rw [if_pos hdue] at hx
        simp only [List.mem_singleton] at hx
        rw [hx]
        rfl
      · rw [if_neg hdue] at hx
        simp at hx
  · intro hfilter
    rw [doClusterBackupSync_eq_empty env cluster bs hdel helig hlist hfilter hcreate]
  · intro first rest hfilter
    rw [doClusterBackupSync_eq_cons env cluster bc bs first rest
      hdel helig hbc hlist hfilter hcreate]
    have heq : getBackupCompletedTime (findNewest first rest) =
        latestCompletedTime first rest := findNewest_time rest first
    rw [heq]
    by_cases hdue : env.now - latestCompletedTime first rest >
        bc.intervalHours * hourSeconds
    · rw [if_pos hdue, if_pos hdue]
      rfl
    · rw [if_neg hdue, if_neg hdue]
      rfl

/-- Backup policy used by the sweep witnesses: enabled, 24 h interval,
retention 2. -/
def backupConfigW : BackupConfig :=
  { enabled := some true, intervalHours := 24, retention := 2 }

/-- An eligible, ready cluster used by the sweep witnesses. -/
def clusterW : Cluster :=
  { name := "c1", ready := true,
    rkeConfig := some { backupConfig := some backupConfigW } }

/-- Sweep environment with an empty backup list, for the C4 witness. -/
def syncEnvEmptyW : SyncEnv := { now := 0, listResult := some [] }

/-- **C4 witness.** A concrete eligible cluster with zero backups gets
exactly one new (non-manual) backup from the sweep tick. -/
theorem doClusterBackupSync_due_spec_witness :
    (doClusterBackupSync syncEnvEmptyW clusterW).2.createdBackups =
      [createNewBackup clusterW 0] := by
  have h := (doClusterBackupSync_due_spec syncEnvEmptyW clusterW
    backupConfigW [] rfl (by decide) (by decide) rfl rfl).2.1 rfl
  exact h

/-- The rotation loop skips a manual backup. -/
lemma rotateLoop_cons_manual (del : EtcdBackup → Option String) (b : EtcdBackup)
    (rest : List EtcdBackup) (h : b.manual = true) :
    rotateLoop del (b :: rest) = rotateLoop del rest := by
  conv_lhs => unfold rotateLoop
  rw [if_pos h]

/-- A failing delete of a non-manual backup aborts the rotation loop with
that error, deleting nothing further. -/
lemma rotateLoop_cons_fail (del : EtcdBackup → Option String) (b : EtcdBackup)
    (rest : List EtcdBackup) (e : String)
    (hm : b.manual = false) (he : del b = some e) :
    rotateLoop del (b :: rest) = (some e, []) := by
  conv_lhs => unfold rotateLoop
  rw [hm, he]
  rfl

/-- A successful delete of a non-manual backup records it and continues. -/
lemma rotateLoop_cons_ok (del : EtcdBackup → Option String) (b : EtcdBackup)
    (rest : List EtcdBackup)
    (hm : b.manual = false) (he : del b = none) :
    rotateLoop del (b :: rest) =
      ((rotateLoop del rest).1, b :: (rotateLoop del rest).2) := by
  conv_lhs => unfold rotateLoop
  rw [hm, he]
  rfl

/-- If every earlier entry is manual or deletes cleanly and then a
non-manual entry fails to delete, the rotation loop stops at that failure:
it returns the error and only the earlier non-manual entries were
deleted. -/
lemma rotateLoop_first_failure (del : EtcdBackup → Option String) (b : EtcdBackup)
    (e : String) (hb : b.manual = false) (he : del b = some e) :
    ∀ pre post, (∀ x ∈ pre, x.manual = true ∨ del x = none) →
      rotateLoop del (pre ++ b :: post) =
        (some e, pre.filter (fun x => !x.manual)) := by
  intro pre
  induction pre with
  | nil =>
    intro post _
    rw [List.nil_append, rotateLoop_cons_fail del b post e hb he]
    rfl
  | cons x xs ih =>
    intro post hpre
    by_cases hxm : x.manual = true
    · rw [List.cons_append, rotateLoop_cons_manual del x _ hxm,
        ih post (fun y hy => hpre y (List.mem_cons_of_mem x hy)),
        List.filter_cons]
      simp [hxm]
    · have hxm2 : x.manual = false := by simpa using hxm
      have hxd : del x = none :=
        (hpre x (List.mem_cons_self x xs)).resolve_left (by simp [hxm2])
      rw [List.cons_append, rotateLoop_cons_ok del x _ hxm2 hxd,
        ih post (fun y hy => hpre y (List.mem_cons_of_mem x hy)),
        List.filter_cons]
      simp [hxm2]

/-- **C10.** Rotation aborts on the first deletion failure: when the
expired list splits as `pre ++ b :: post` with every backup in `pre`
manual or deleting cleanly and the non-manual `b` failing to delete,
`rotateExpiredBackups` returns that error and only the non-manual part of
`pre` was deleted — nothing in `post` is deleted in that sweep cycle. -/
theorem rotate_aborts_on_first_failure (env : SyncEnv) (cluster : Cluster)
    (bc : BackupConfig) (backups pre post : List EtcdBackup) (b : EtcdBackup)
    (e : String)
    (hbc : clusterBackupConfig cluster = some bc)
    (hexp : getExpiredBackups env.now bc.retention bc.intervalHours backups =
      pre ++ b :: post)
    (hpre : ∀ x ∈ pre, x.manual = true ∨ env.deleteResult x = none)
    (hb : b.manual = false)
    (he : env.deleteResult b = some e) :
    rotateExpiredBackups env cluster backups =
      (some e, pre.filter (fun x => !x.manual)) := by
  unfold rotateExpiredBackups
  rw [hbc]
  simp only [Option.map_some', Option.getD_some]
  rw [hexp]
  exact rotateLoop_first_failure env.deleteResult b e hb he pre post hpre

/-- Sweep environment whose every delete fails, for the C10 witness. -/
def rotateFailEnv : SyncEnv :=
  { now := 1000000, deleteResult := fun _ => some "delete failed" }

/-- **C10 witness.** With one expired non-manual backup whose delete
fails, rotation returns the delete error and deletes nothing. -/
theorem rotate_aborts_on_first_failure_witness :
    rotateExpiredBackups rotateFailEnv clusterW [backupAged 0] =
      (some "delete failed", []) := by
  have h := rotate_aborts_on_first_failure rotateFailEnv clusterW
    backupConfigW [backupAged 0] [] [] (backupAged 0) "delete failed"
    (by decide) (by decide) (fun x hx => absurd hx (List.not_mem_nil x)) rfl rfl
  exact h


end EtcdBackupModel
